import Mathlib

/-!
Shallow embedding of the CF-CLI-Create-Services plugin
(`create-services-plugin.go`) and proofs about its service-creation
orchestration, flag scanning and exit behaviour.

Effectful collaborators (the Cloud Foundry CLI connection, the file
system, the push command) are modelled as explicit oracle inputs; the
functions below mirror the Go control flow over those oracles and
additionally record a trace of the externally visible actions
(creation commands issued, number of `GetService` polls performed,
whether `os.Exit(1)` was reached, whether the push was forwarded).
-/

set_option autoImplicit false

namespace CreateServicePushPlugin

/-- Modelled from the plugin library used by the source: the
`LastOperation` status the control plane reports for a service
(`service.LastOperation` in `createService`); only the fields the
plugin reads are kept. -/
structure LastOperation where
  description : String
  state : String
  deriving DecidableEq, Repr

/-- Modelled from the plugin library used by the source: a service as
returned by `GetServices` / `GetService`; only the fields the plugin
reads are kept. -/
structure RemoteService where
  name : String
  lastOperation : LastOperation
  deriving DecidableEq, Repr

/-- Modelled from the spec: one entry of the services manifest. The
manifest model lives in a repository file not included here; the field
names follow their uses in `createServices`
(`serviceObject.ServiceName`, `.Broker`, `.PlanName`,
`.JSONParameters`). -/
structure ServiceSpec where
  serviceName : String
  broker : String
  planName : String
  jsonParameters : String
  deriving DecidableEq, Repr

/-- Modelled from the spec: the manifest is an ordered list of service
specs (`c.manifest.Services` in `createServices`). -/
structure Manifest where
  services : List ServiceSpec
  deriving DecidableEq, Repr

/-- Result of one `createService` call. `ok` models a `nil` error
return, `err` a non-nil error, and `diverge` a polling loop that has
consumed every available poll response without reaching a terminal
state (the Go loop would still be running). -/
inductive CSResult where
  | ok
  | err (msg : String)
  | diverge
  deriving DecidableEq, Repr

/-- The polling loop of `createService` (lines 146-164 of the source),
run against a finite list of successive `GetService` responses. It
returns the loop's outcome together with the number of `GetService`
calls performed. A `GetService` error is returned as-is; state
"succeeded" breaks out of the loop; state "failed" builds the error
message of the source's `fmt.Errorf`; any other state continues. -/
def pollLoop : List (Except String RemoteService) → CSResult × Nat
  | [] => (.diverge, 0)
  | .error e :: _ => (.err e, 1)
  | .ok svc :: rest =>
    if svc.lastOperation.state = "succeeded" then (.ok, 1)
    else if svc.lastOperation.state = "failed" then
      (.err ("error " ++ svc.lastOperation.description ++ " [status: "
          ++ svc.lastOperation.state ++ "]"), 1)
    else
      let r := pollLoop rest
      (r.1, r.2 + 1)

/-- Oracle inputs consumed by one `createService` call: the result of
its initial `GetServices` query, the error (if any) of the
`create-service` CLI command it may issue, and the successive
`GetService` responses for its polling loop. -/
structure Env where
  getServices : Except String (List RemoteService)
  runResult : Option String
  polls : List (Except String RemoteService)

/-- Argument list of the `create-service` CLI command issued by
`createService`, with the optional `-c` JSON-parameters flag (lines
135-139 of the source). -/
def createCommandArgs (name broker plan jsonParam : String) : List String :=
  if jsonParam = "" then ["create-service", broker, plan, name]
  else ["create-service", broker, plan, name, "-c", jsonParam]

/-- Observable outcome of one `createService` call: its returned error
value, the CLI commands it issued through `run`, and the number of
`GetService` polls it performed. -/
structure CSOutput where
  result : CSResult
  commands : List (List String)
  pollCount : Nat
  deriving DecidableEq, Repr

/-- The `createService` method (lines 119-167 of the source). It
queries `GetServices`; on error that error is returned. If some
existing service has exactly the requested name, it returns nil
without issuing any command. Otherwise it issues the creation command;
a non-nil command error is returned immediately (line 141-143), before
the polling loop. Otherwise the polling loop runs. -/
def createService (env : Env) (name broker plan jsonParam : String) : CSOutput :=
  match env.getServices with
  | .error e => ⟨.err e, [], 0⟩
  | .ok svcs =>
    if svcs.any (fun svc => svc.name == name) then ⟨.ok, [], 0⟩
    else
      let cmd := createCommandArgs name broker plan jsonParam
      match env.runResult with
      | some e => ⟨.err e, [cmd], 0⟩
      | none =>
        let p := pollLoop env.polls
        ⟨p.1, [cmd], p.2⟩

/-- Iteration of `createServices` over the manifest entries, threading
the per-call oracle by position (`env i` feeds the i-th entry). -/
def createServicesGo (env : Nat → Env) : List ServiceSpec → List CSOutput
  | [] => []
  | s :: rest =>
    createService (env 0) s.serviceName s.broker s.planName s.jsonParameters ::
      createServicesGo (fun i => env (i + 1)) rest

/-- The `createServices` method (lines 98-107 of the source): it calls
`createService` for every manifest entry in order, printing and
discarding each per-entry error, and returns nil unconditionally. The
first component is the returned error value, the second the trace of
per-entry outcomes. -/
def createServices (env : Nat → Env) (m : Manifest) : Option String × List CSOutput :=
  (none, createServicesGo env m.services)

/-- The first flag scan of `Run` (lines 40-48 of the source):
left-to-right, first match wins; `--service-manifest` takes the next
argument as the manifest filename and `--no-service-manifest` clears
it; otherwise the default filename stands. `none` models the Go panic
raised when `--service-manifest` is the final argument and `args[i+1]`
indexes past the end of the slice. -/
def findManifestFilename : List String → Option String
  | [] => some "services-manifest.yml"
  | arg :: rest =>
    if arg = "--service-manifest" then
      match rest with
      | next :: _ => some next
      | [] => none
    else if arg = "--no-service-manifest" then some ""
    else findManifestFilename rest

/-- The second flag scan of `Run` (lines 50-55 of the source):
`pushApplication` becomes false exactly when some argument is
`--no-push`. -/
def noPushFlag (args : List String) : Bool :=
  args.any (fun a => a == "--no-push")

/-- Oracle inputs consumed by one `Run` invocation: the outcome of the
`os.Stat` / `os.Open` / `ParseManifest` calls on the manifest file,
the per-entry control-plane oracle handed to `createServices`, and the
error (if any) of the forwarded push command. -/
structure World where
  statNotExist : Bool
  openOk : Bool
  parse : Except String Manifest
  env : Nat → Env
  pushError : Option String

/-- Observable trace of one `Run` invocation. `exited1` records that
`os.Exit(1)` was reached (the process exits 1); when `Run` instead
returns normally the CLI exits 0. `panicked` records an
index-out-of-range panic in the flag scan (or an empty argument
slice). `serviceOutputs` is `some` exactly when `createServices` was
invoked. -/
structure RunTrace where
  dispatched : Bool
  panicked : Bool
  manifestFilename : Option String
  statCalled : Bool
  openCalled : Bool
  parseCalled : Bool
  serviceOutputs : Option (List CSOutput)
  exited1 : Bool
  pushed : Bool
  deriving DecidableEq, Repr

/-- The `Run` method (lines 30-96 of the source). It dispatches only on
the command name `create-service-push`, scans the flags, and if a
non-empty manifest filename is active it checks the file exists, opens
it, parses it and runs `createServices`, exiting with status 1 on any
of the three manifest-stage failures; finally, unless `--no-push` was
given, it forwards the push command. -/
def Run (w : World) : List String → RunTrace
  | [] =>
    { dispatched := false, panicked := true, manifestFilename := none,
      statCalled := false, openCalled := false, parseCalled := false,
      serviceOutputs := none, exited1 := false, pushed := false }
  | a0 :: rest =>
    let args := a0 :: rest
    if a0 = "create-service-push" then
      match findManifestFilename args with
      | none =>
        { dispatched := true, panicked := true, manifestFilename := none,
          statCalled := false, openCalled := false, parseCalled := false,
          serviceOutputs := none, exited1 := false, pushed := false }
      | some mf =>
        let doPush := !noPushFlag args
        if 0 < mf.length then
          if w.statNotExist then
            { dispatched := true, panicked := false, manifestFilename := some mf,
              statCalled := true, openCalled := false, parseCalled := false,
              serviceOutputs := none, exited1 := true, pushed := false }
          else if !w.openOk then
            { dispatched := true, panicked := false, manifestFilename := some mf,
              statCalled := true, openCalled := true, parseCalled := false,
              serviceOutputs := none, exited1 := true, pushed := false }
          else
            match w.parse with
            | .error _ =>
              { dispatched := true, panicked := false, manifestFilename := some mf,
                statCalled := true, openCalled := true, parseCalled := true,
                serviceOutputs := none, exited1 := true, pushed := false }
            | .ok m =>
              { dispatched := true, panicked := false, manifestFilename := some mf,
                statCalled := true, openCalled := true, parseCalled := true,
                serviceOutputs := some (createServices w.env m).2,
                exited1 := false, pushed := doPush }
        else
          { dispatched := true, panicked := false, manifestFilename := some mf,
            statCalled := false, openCalled := false, parseCalled := false,
            serviceOutputs := none, exited1 := false, pushed := doPush }
    else
      { dispatched := false, panicked := false, manifestFilename := none,
        statCalled := false, openCalled := false, parseCalled := false,
        serviceOutputs := none, exited1 := false, pushed := false }

/-! ## Helper lemmas -/

/-- The existence scan of `createService` fails exactly when no listed
service carries the requested name. -/
theorem any_name_eq_false {svcs : List RemoteService} {name : String}
    (hno : ∀ svc ∈ svcs, svc.name ≠ name) :
    svcs.any (fun s => s.name == name) = false := by
  simp only [List.any_eq_false, beq_iff_eq]
  exact hno

/-- When `GetServices` succeeds and no listed service has the requested
name, `createService` issues exactly the creation command, whatever the
command and poll oracles answer. -/
theorem createService_commands_of_new {env : Env} {name : String}
    (broker plan jsonParam : String) {svcs : List RemoteService}
    (hget : env.getServices = Except.ok svcs)
    (hno : ∀ svc ∈ svcs, svc.name ≠ name) :
    (createService env name broker plan jsonParam).commands
      = [createCommandArgs name broker plan jsonParam] := by
  unfold createService
  rw [hget]
  simp only [any_name_eq_false hno, Bool.false_eq_true, if_false]
  cases env.runResult <;> rfl

/-! ## Claim theorems -/

/-- C3: for every `ServiceSpec` whose name exactly matches the name of
some service returned by the `GetServices` query, `createService`
issues no creation command, performs no polls, and returns nil. -/
theorem createService_skips_existing (env : Env) (name broker plan jsonParam : String)
    (svcs : List RemoteService) (hget : env.getServices = Except.ok svcs)
    (svc : RemoteService) (hmem : svc ∈ svcs) (hname : svc.name = name) :
    createService env name broker plan jsonParam = ⟨CSResult.ok, [], 0⟩ := by
  unfold createService
  rw [hget]
  have h : svcs.any (fun s => s.name == name) = true :=
    List.any_eq_true.mpr ⟨svc, hmem, by simp [hname]⟩
  simp [h]

/-- Witness for C3: a pre-existing service named db1 makes the call a
no-op returning nil. -/
theorem createService_skips_existing_witness :
    createService ⟨Except.ok [⟨"db1", ⟨"", "succeeded"⟩⟩], none, []⟩ "db1" "mysql" "free" ""
      = ⟨CSResult.ok, [], 0⟩ :=
  createService_skips_existing _ "db1" "mysql" "free" "" [⟨"db1", ⟨"", "succeeded"⟩⟩] rfl
    ⟨"db1", ⟨"", "succeeded"⟩⟩ (by simp) rfl

/-- C10: `createServices` returns nil for every manifest and every
oracle outcome; per-entry errors are printed and discarded, never
propagated. -/
theorem createServices_returns_nil (env : Nat → Env) (m : Manifest) :
    (createServices env m).1 = none := rfl

/-- C1 counterexample: at this concrete input the creation command
errors and a poll response is available, yet `createService` performs
zero `GetService` polls and returns the creation error itself — the
polling step is not attempted after a creation-call error, contrary to
the claim that it is unconditionally attempted. -/
theorem createService_no_poll_after_create_error_cex :
    (createService ⟨Except.ok [], some "create failed",
        [Except.ok ⟨"db1", ⟨"done", "succeeded"⟩⟩]⟩ "db1" "mysql" "free" "").result
      = CSResult.err "create failed" ∧
    ¬ 1 ≤ (createService ⟨Except.ok [], some "create failed",
        [Except.ok ⟨"db1", ⟨"done", "succeeded"⟩⟩]⟩ "db1" "mysql" "free" "").pollCount := by
  exact ⟨rfl, by decide⟩

/-- C1 amended: when `GetServices` succeeds with no service of the
requested name and the creation command returns an error,
`createService` returns that error immediately, having issued exactly
the creation command and performed zero `GetService` polls. -/
theorem createService_returns_create_error_without_polling (env : Env)
    (name broker plan jsonParam e : String) (svcs : List RemoteService)
    (hget : env.getServices = Except.ok svcs)
    (hno : ∀ svc ∈ svcs, svc.name ≠ name)
    (hrun : env.runResult = some e) :
    createService env name broker plan jsonParam
      = ⟨CSResult.err e, [createCommandArgs name broker plan jsonParam], 0⟩ := by
  unfold createService
  rw [hget]
  simp only [any_name_eq_false hno, Bool.false_eq_true, if_false, hrun]

/-- Witness for the amended C1 at a concrete input. -/
theorem createService_returns_create_error_without_polling_witness :
    createService ⟨Except.ok [], some "boom", []⟩ "db1" "mysql" "free" ""
      = ⟨CSResult.err "boom", [createCommandArgs "db1" "mysql" "free" ""], 0⟩ :=
  createService_returns_create_error_without_polling _ "db1" "mysql" "free" "" "boom" []
    rfl (by simp) rfl

/-- Commands issued by `createServicesGo` concatenate, entry by entry. -/
theorem createServicesGo_commands (env : Nat → Env) (l : List ServiceSpec)
    (h : ∀ i, i < l.length → ∃ svcs,
        (env i).getServices = Except.ok svcs ∧
        ∀ svc ∈ svcs, ∀ spec ∈ l, svc.name ≠ spec.serviceName) :
    ((createServicesGo env l).map CSOutput.commands).flatten
      = l.map (fun s =>
          createCommandArgs s.serviceName s.broker s.planName s.jsonParameters) := by
  induction l generalizing env with
  | nil => rfl
  | cons s rest ih =>
    obtain ⟨svcs, hget, hno⟩ := h 0 (by simp)
    have hcmd := createService_commands_of_new s.broker s.planName s.jsonParameters hget
      (fun svc hsvc => hno svc hsvc s (List.mem_cons_self s rest))
    have hrest := ih (fun i => env (i + 1)) (fun i hi => by
      obtain ⟨svcs', hget', hno'⟩ := h (i + 1) (by simpa using Nat.succ_lt_succ hi)
      exact ⟨svcs', hget', fun svc hsvc spec hspec =>
        hno' svc hsvc spec (List.mem_cons_of_mem s hspec)⟩)
    simp only [createServicesGo, List.map_cons, List.flatten_cons, hcmd, hrest,
      List.singleton_append]

/-- `createServicesGo` produces one outcome per manifest entry. -/
theorem createServicesGo_length (env : Nat → Env) (l : List ServiceSpec) :
    (createServicesGo env l).length = l.length := by
  induction l generalizing env with
  | nil => rfl
  | cons s rest ih => simp [createServicesGo, ih]

/-- The j-th outcome of `createServicesGo` is the `createService` call
for the j-th manifest entry against the j-th oracle. -/
theorem createServicesGo_getElem (env : Nat → Env) (l : List ServiceSpec) (j : Nat) :
    (createServicesGo env l)[j]?
      = (l[j]?).map (fun s =>
          createService (env j) s.serviceName s.broker s.planName s.jsonParameters) := by
  induction l generalizing env j with
  | nil => rfl
  | cons s rest ih =>
    cases j with
    | zero => simp [createServicesGo]
    | succ j => simpa [createServicesGo] using ih (fun i => env (i + 1)) j

/-- One polling step on a non-terminal state recurses and counts the
poll. -/
theorem pollLoop_step (s : RemoteService) (L : List (Except String RemoteService))
    (h1 : s.lastOperation.state ≠ "succeeded") (h2 : s.lastOperation.state ≠ "failed") :
    pollLoop (Except.ok s :: L) = ((pollLoop L).1, (pollLoop L).2 + 1) := by
  simp [pollLoop, h1, h2]

/-- The error message of a failed provisioning embeds both the
operation description and the state. -/
theorem failed_message_embeds (d st : String) :
    d.data <:+: ("error " ++ d ++ " [status: " ++ st ++ "]").data ∧
    st.data <:+: ("error " ++ d ++ " [status: " ++ st ++ "]").data := by
  constructor
  · simp only [String.data_append]
    exact ⟨"error ".data, " [status: ".data ++ st.data ++ "]".data, by simp⟩
  · simp only [String.data_append]
    exact ⟨"error ".data ++ d.data ++ " [status: ".data, "]".data, by simp⟩

/-- C2: when every per-entry `GetServices` answer succeeds and lists no
service sharing a name with any manifest entry, `createServices` issues
exactly one creation command per entry, in manifest order. -/
theorem createServices_creates_in_order (env : Nat → Env) (m : Manifest)
    (h : ∀ i, i < m.services.length → ∃ svcs,
        (env i).getServices = Except.ok svcs ∧
        ∀ svc ∈ svcs, ∀ spec ∈ m.services, svc.name ≠ spec.serviceName) :
    (((createServices env m).2.map CSOutput.commands).flatten
      = m.services.map (fun s =>
          createCommandArgs s.serviceName s.broker s.planName s.jsonParameters)) ∧
    ((createServices env m).2.map CSOutput.commands).flatten.length
      = m.services.length := by
  have h1 : ((createServices env m).2.map CSOutput.commands).flatten
      = m.services.map (fun s =>
          createCommandArgs s.serviceName s.broker s.planName s.jsonParameters) :=
    createServicesGo_commands env m.services h
  refine ⟨h1, ?_⟩
  rw [h1, List.length_map]

/-- Witness for C2: a two-entry manifest with an empty pre-existing
service list yields the two creation commands in file order. -/
theorem createServices_creates_in_order_witness :
    (((createServices (fun _ => ⟨Except.ok [], none, [Except.ok ⟨"x", ⟨"", "succeeded"⟩⟩]⟩)
        ⟨[⟨"db1", "mysql", "free", ""⟩, ⟨"db2", "pg", "big", "x"⟩]⟩).2.map
          CSOutput.commands).flatten
      = [["create-service", "mysql", "free", "db1"],
         ["create-service", "pg", "big", "db2", "-c", "x"]]) := by
  have h := createServices_creates_in_order
      (fun _ => ⟨Except.ok [], none, [Except.ok ⟨"x", ⟨"", "succeeded"⟩⟩]⟩)
      ⟨[⟨"db1", "mysql", "free", ""⟩, ⟨"db2", "pg", "big", "x"⟩]⟩
      (fun i _ => ⟨[], rfl, by simp⟩)
  exact h.1.trans (by decide)

/-- C4: even when some entry's `createService` call returns an error,
`createServices` still produces one outcome per manifest entry, each
subsequent entry being processed by its own `createService` call. -/
theorem createServices_continues_after_error (env : Nat → Env) (m : Manifest)
    (i : Nat) (o : CSOutput) (e : String)
    (_ho : (createServices env m).2[i]? = some o) (_he : o.result = CSResult.err e) :
    (createServices env m).2.length = m.services.length ∧
    ∀ j, (createServices env m).2[j]?
      = (m.services[j]?).map (fun s =>
          createService (env j) s.serviceName s.broker s.planName s.jsonParameters) :=
  ⟨createServicesGo_length env m.services,
    fun j => createServicesGo_getElem env m.services j⟩

/-- Witness for C4: with the control plane erroring on the first entry,
both entries of a two-entry manifest are still processed. -/
theorem createServices_continues_after_error_witness :
    (createServices (fun _ => ⟨Except.error "boom", none, []⟩)
        ⟨[⟨"a", "b", "p", ""⟩, ⟨"c", "d", "q", ""⟩]⟩).2.length = 2 := by
  have h := createServices_continues_after_error
      (fun _ => ⟨Except.error "boom", none, []⟩)
      ⟨[⟨"a", "b", "p", ""⟩, ⟨"c", "d", "q", ""⟩]⟩ 0 ⟨CSResult.err "boom", [], 0⟩ "boom"
      rfl rfl
  exact h.1.trans rfl

/-- C5: over any run of non-terminal successful polls, the polling loop
exits normally (returning nil) at the first poll whose state is
"succeeded", and at the first poll whose state is "failed" it returns
the error whose message embeds both the operation description and the
state; on every earlier non-terminal state it kept polling, as the poll
count records. -/
theorem pollLoop_first_terminal (pre rest : List (Except String RemoteService))
    (svc : RemoteService)
    (hpre : ∀ x ∈ pre, ∃ s, x = Except.ok s ∧
        s.lastOperation.state ≠ "succeeded" ∧ s.lastOperation.state ≠ "failed") :
    (svc.lastOperation.state = "succeeded" →
        pollLoop (pre ++ Except.ok svc :: rest) = (CSResult.ok, pre.length + 1)) ∧
    (svc.lastOperation.state = "failed" →
        pollLoop (pre ++ Except.ok svc :: rest)
          = (CSResult.err ("error " ++ svc.lastOperation.description ++ " [status: "
              ++ svc.lastOperation.state ++ "]"), pre.length + 1) ∧
        svc.lastOperation.description.data
          <:+: ("error " ++ svc.lastOperation.description ++ " [status: "
              ++ svc.lastOperation.state ++ "]").data ∧
        svc.lastOperation.state.data
          <:+: ("error " ++ svc.lastOperation.description ++ " [status: "
              ++ svc.lastOperation.state ++ "]").data) := by
  induction pre with
  | nil =>
    refine ⟨fun hs => ?_, fun hf =>
      ⟨?_, (failed_message_embeds _ _).1, (failed_message_embeds _ _).2⟩⟩
    · simp [pollLoop, hs]
    · simp [pollLoop, hf]
  | cons x pre ih =>
    obtain ⟨s, rfl, hs1, hs2⟩ := hpre x (List.mem_cons_self x pre)
    have ih' := ih (fun y hy => hpre y (List.mem_cons_of_mem _ hy))
    constructor
    · intro hs
      rw [List.cons_append, pollLoop_step s _ hs1 hs2, ih'.1 hs]
      simp
    · intro hf
      refine ⟨?_, (failed_message_embeds _ _).1, (failed_message_embeds _ _).2⟩
      rw [List.cons_append, pollLoop_step s _ hs1 hs2, (ih'.2 hf).1]
      simp

/-- Witness for C5: one in-progress poll followed by a succeeded poll
exits normally after two polls. -/
theorem pollLoop_first_terminal_witness :
    pollLoop [Except.ok ⟨"db1", ⟨"working", "in progress"⟩⟩,
        Except.ok ⟨"db1", ⟨"done", "succeeded"⟩⟩] = (CSResult.ok, 2) := by
  have h := pollLoop_first_terminal [Except.ok ⟨"db1", ⟨"working", "in progress"⟩⟩] []
      ⟨"db1", ⟨"done", "succeeded"⟩⟩
      (fun x hx => by
        rw [List.mem_singleton] at hx
        exact ⟨⟨"db1", ⟨"working", "in progress"⟩⟩, by rw [hx], by decide, by decide⟩)
  exact h.1 rfl

/-- A `--no-service-manifest` argument with no `--service-manifest`
before it makes the flag scan clear the manifest filename. -/
theorem findManifestFilename_no_manifest (pre post : List String)
    (hpre : "--service-manifest" ∉ pre) :
    findManifestFilename (pre ++ "--no-service-manifest" :: post) = some "" := by
  induction pre with
  | nil => rfl
  | cons a t ih =>
    have ha : a ≠ "--service-manifest" := fun h => hpre (h ▸ List.mem_cons_self a t)
    by_cases hb : a = "--no-service-manifest"
    · simp [findManifestFilename, ha, hb]
    · simp only [List.cons_append, findManifestFilename, if_neg ha, if_neg hb]
      exact ih (fun h => hpre (List.mem_cons_of_mem a h))

/-- C6: with `--no-service-manifest` among the arguments and no
`--service-manifest` before it, `Run` clears the manifest filename and
skips the whole manifest branch: no stat, no open, no parse, no
`createServices` invocation, and no exit-1. -/
theorem run_no_service_manifest (w : World) (args pre post : List String)
    (hhead : args.head? = some "create-service-push")
    (hsplit : args = pre ++ "--no-service-manifest" :: post)
    (hpre : "--service-manifest" ∉ pre) :
    (Run w args).manifestFilename = some "" ∧
    (Run w args).statCalled = false ∧
    (Run w args).openCalled = false ∧
    (Run w args).parseCalled = false ∧
    (Run w args).serviceOutputs = none ∧
    (Run w args).exited1 = false := by
  have hmf : findManifestFilename args = some "" := by
    rw [hsplit]
    exact findManifestFilename_no_manifest pre post hpre
  cases args with
  | nil => simp at hhead
  | cons a rest =>
    simp only [List.head?_cons, Option.some.injEq] at hhead
    subst hhead
    simp only [Run, hmf]
    exact ⟨rfl, rfl, rfl, rfl, rfl, rfl⟩

/-- Witness for C6 at a concrete invocation. -/
theorem run_no_service_manifest_witness :
    (Run ⟨false, true, Except.ok ⟨[]⟩, fun _ => ⟨Except.ok [], none, []⟩, none⟩
        ["create-service-push", "--no-service-manifest"]).serviceOutputs = none ∧
    (Run ⟨false, true, Except.ok ⟨[]⟩, fun _ => ⟨Except.ok [], none, []⟩, none⟩
        ["create-service-push", "--no-service-manifest"]).statCalled = false := by
  have h := run_no_service_manifest
      ⟨false, true, Except.ok ⟨[]⟩, fun _ => ⟨Except.ok [], none, []⟩, none⟩
      ["create-service-push", "--no-service-manifest"] ["create-service-push"] []
      rfl rfl (by simp)
  exact ⟨h.2.2.2.2.1, h.2.1⟩

/-- C7: a `--no-push` argument anywhere suppresses the forwarded push
command on every path of `Run`. -/
theorem run_no_push (w : World) (args : List String)
    (h : "--no-push" ∈ args) : (Run w args).pushed = false := by
  have hflag : noPushFlag args = true :=
    List.any_eq_true.mpr ⟨"--no-push", h, by simp⟩
  cases args with
  | nil => rfl
  | cons a rest =>
    simp only [Run, hflag, Bool.not_true]
    by_cases ha : a = "create-service-push"
    · simp only [if_pos ha]
      cases hm : findManifestFilename (a :: rest) with
      | none => rfl
      | some mf =>
        by_cases hl : 0 < mf.length
        · by_cases hs : w.statNotExist = true
          · simp only [if_pos hl, if_pos hs]
          · by_cases hop : (!w.openOk) = true
            · simp only [if_pos hl, if_neg hs, if_pos hop]
            · simp only [if_pos hl, if_neg hs, if_neg hop]
              cases w.parse with
              | error e => rfl
              | ok m => rfl
        · simp only [if_neg hl]
    · simp only [if_neg ha]

/-- Witness for C7 at a concrete invocation. -/
theorem run_no_push_witness :
    (Run ⟨false, true, Except.ok ⟨[]⟩, fun _ => ⟨Except.ok [], none, []⟩, none⟩
        ["create-service-push", "--no-service-manifest", "--no-push"]).pushed = false :=
  run_no_push ⟨false, true, Except.ok ⟨[]⟩, fun _ => ⟨Except.ok [], none, []⟩, none⟩
    ["create-service-push", "--no-service-manifest", "--no-push"] (by simp)

/-- A manifest filename passes the `len(manifestFilename) > 0` guard
exactly when it is not the empty string. -/
theorem length_pos_iff_ne_empty (mf : String) : (0 < mf.length) ↔ mf ≠ "" := by
  have hd : mf.length = mf.data.length := rfl
  rw [hd, List.length_pos]
  constructor
  · intro h hmf
    subst hmf
    exact h rfl
  · intro h hdata
    exact h (by cases mf; simp_all)

/-- C8: a dispatched `Run` reaches `os.Exit(1)` exactly in the three
fatal manifest-stage cases — active manifest file not found, file
present but not openable, or manifest parse error; in every other case
(whatever the per-service outcomes and the push result) it returns
normally and the process exits 0. -/
theorem run_exit_status (w : World) (rest : List String) (mf : String)
    (hscan : findManifestFilename ("create-service-push" :: rest) = some mf) :
    (Run w ("create-service-push" :: rest)).exited1 = true ↔
      (mf ≠ "" ∧ (w.statNotExist = true ∨
        (w.statNotExist = false ∧ w.openOk = false) ∨
        (w.statNotExist = false ∧ w.openOk = true ∧
          ∃ e, w.parse = Except.error e))) := by
  simp only [Run, hscan]
  by_cases hl : 0 < mf.length
  · have hne := (length_pos_iff_ne_empty mf).mp hl
    simp only [if_pos hl]
    cases hstat : w.statNotExist with
    | true => simp [hne]
    | false =>
      cases hop : w.openOk with
      | false => simp [hne]
      | true =>
        cases hp : w.parse with
        | error e => simp [hne]
        | ok m => simp
  · have he : mf = "" := by
      by_contra hne
      exact hl ((length_pos_iff_ne_empty mf).mpr hne)
    subst he
    simp

/-- Witness for C8: a missing manifest file at the default filename
makes the process exit 1. -/
theorem run_exit_status_witness :
    (Run ⟨true, true, Except.ok ⟨[]⟩, fun _ => ⟨Except.ok [], none, []⟩, none⟩
        ["create-service-push"]).exited1 = true := by
  have h := run_exit_status
      ⟨true, true, Except.ok ⟨[]⟩, fun _ => ⟨Except.ok [], none, []⟩, none⟩
      [] "services-manifest.yml" rfl
  exact h.mpr ⟨by decide, Or.inl rfl⟩

/-- C9: the flag scan reads the argument after `--service-manifest`: at
the concrete invocation where that flag is the final argument the
modelled `args[i+1]` access is out of bounds and `Run` records the
panic, while whenever every occurrence of `--service-manifest` is
followed by at least one further argument the scan stays in bounds and
produces a filename. -/
theorem findManifestFilename_index_bounds :
    findManifestFilename ["create-service-push", "--service-manifest"] = none ∧
    (Run ⟨false, true, Except.ok ⟨[]⟩, fun _ => ⟨Except.ok [], none, []⟩, none⟩
        ["create-service-push", "--service-manifest"]).panicked = true ∧
    ∀ args : List String,
      (∀ pre post, args = pre ++ "--service-manifest" :: post → post ≠ []) →
      (findManifestFilename args).isSome = true := by
  refine ⟨rfl, rfl, ?_⟩
  intro args
  induction args with
  | nil => intro _; rfl
  | cons a rest ih =>
    intro h
    by_cases ha : a = "--service-manifest"
    · subst ha
      have hne : rest ≠ [] := h [] rest rfl
      cases rest with
      | nil => exact absurd rfl hne
      | cons b t => rfl
    · by_cases hb : a = "--no-service-manifest"
      · simp [findManifestFilename, ha, hb]
      · have hrec := ih (fun pre post hp => h (a :: pre) post (by simp [hp]))
        simpa [findManifestFilename, ha, hb] using hrec

/-- Witness for C9: an argument list with no `--service-manifest` at
all vacuously satisfies the precondition and the scan is in bounds. -/
theorem findManifestFilename_index_bounds_witness :
    (findManifestFilename ["create-service-push"]).isSome = true := by
  apply findManifestFilename_index_bounds.2.2 ["create-service-push"]
  intro pre post hp
  exfalso
  rcases pre with _ | ⟨a, t⟩
  · simp at hp
  · rcases t with _ | ⟨b, t⟩ <;> simp at hp

end CreateServicePushPlugin
